import Mathlib

/-!
Verification of `wakeonwan` (src/main.rs), a Wake-on-LAN CLI.

Shallow embedding conventions:
* Rust `&str` host strings are `List Char`; `u8` bytes and `u16` ports are `Nat`.
* OS facilities (DNS lookup via `to_socket_addrs`, `UdpSocket::bind`,
  `set_broadcast`, `send_to`) are oracle parameters; their error payloads are
  opaque `Nat` codes.  Human-readable message text attached by `anyhow` /
  the `log` macros is presentation and is not modelled; what is modelled is
  which events occur and which error variant is produced.
* A Rust panic (failed `copy_from_slice`) is `Option.none`.
-/

namespace WakeOnWan

/-- Model of `std::net::IpAddr`: an IPv4 address is four octets, an IPv6
address is its segment list. -/
inductive IpAddr where
  | v4 (a b c d : Nat)
  | v6 (segs : List Nat)
deriving DecidableEq

/-- `true` exactly on the `v4` constructor (Rust `SocketAddr::V4` pattern). -/
def IpAddr.isV4 : IpAddr → Bool
  | .v4 _ _ _ _ => true
  | .v6 _ => false

/-- Model of `std::net::SocketAddr`: an IP address plus a UDP port. -/
structure SocketAddr where
  ip : IpAddr
  port : Nat
deriving DecidableEq

/-- Rust `str::trim_start_matches(c)`: remove every leading occurrence of
the character `c`. -/
def trimStartMatches (c : Char) : List Char → List Char
  | [] => []
  | x :: xs => if x = c then trimStartMatches c xs else x :: xs

/-- Rust `str::trim_end_matches(c)`: remove every trailing occurrence of
the character `c`. -/
def trimEndMatches (c : Char) (s : List Char) : List Char :=
  (trimStartMatches c s.reverse).reverse

/-- The host normalization performed on the first line of
`resolve_destination`: `host.trim_start_matches('[').trim_end_matches(']')`. -/
def host_clean (host : List Char) : List Char :=
  trimEndMatches ']' (trimStartMatches '[' host)

/-- Modelled from the spec: strip a SINGLE leading occurrence of `c`
("strip a single leading `[` ... if present").  Refinement comparison
definition for the normalization the spec describes; the source's
`trim_start_matches` is `trimStartMatches` above. -/
def stripOnceLead (c : Char) : List Char → List Char
  | [] => []
  | x :: xs => if x = c then xs else x :: xs

/-- Modelled from the spec: strip a single trailing occurrence of `c`. -/
def stripOnceTrail (c : Char) (s : List Char) : List Char :=
  (stripOnceLead c s.reverse).reverse

/-- Modelled from the spec: the normalization claim C4 describes — exactly
one leading `[` and one trailing `]` removed, each only if present. -/
def host_clean_single (host : List Char) : List Char :=
  stripOnceTrail ']' (stripOnceLead '[' host)

/-- Error result of `resolve_destination` (an `anyhow::Error` in the source):
either the `to_socket_addrs` lookup itself failed (wrapped by
`.with_context(...)`), or it returned an empty iterator
(`No addresses found`).  Message text is not modelled. -/
inductive ResolveErr where
  | lookupFailed (e : Nat)
  | noAddresses
deriving DecidableEq

/-- Model of `resolve_destination` (src/main.rs lines 89-97).  The OS
resolution mechanism `(host_clean, port).to_socket_addrs()` is the oracle
`lookup`, yielding the ordered list of IP addresses for the cleaned host
(each paired with the given port, as Rust's `ToSocketAddrs` for
`(&str, u16)` does); `.next()` takes the first. -/
def resolve_destination (lookup : List Char → Except Nat (List IpAddr))
    (host : List Char) (port : Nat) : Except ResolveErr SocketAddr :=
  match lookup (host_clean host) with
  | .error e => .error (.lookupFailed e)
  | .ok [] => .error .noAddresses
  | .ok (a :: _) => .ok ⟨a, port⟩

/-- Rust `buf[lo..hi].copy_from_slice(src)`: returns the updated buffer, or
`none` on the panics Rust would raise (slice index out of range, or
`src` length different from the slice length). -/
def sliceAssign (buf : List Nat) (lo hi : Nat) (src : List Nat) :
    Option (List Nat) :=
  if lo ≤ hi ∧ hi ≤ buf.length then
    if src.length = hi - lo then some (buf.take lo ++ src ++ buf.drop hi)
    else none
  else none

/-- The loop `for i in 0..16 { pkt[6+i*6..12+i*6].copy_from_slice(mac) }`,
over an explicit list of loop indices. -/
def magicWrites (mac : List Nat) : List Nat → List Nat → Option (List Nat)
  | pkt, [] => some pkt
  | pkt, i :: is =>
    match sliceAssign pkt (6 + i * 6) (12 + i * 6) mac with
    | none => none
    | some pkt2 => magicWrites mac pkt2 is

/-- Model of `magic_packet` (src/main.rs lines 149-156): a 102-byte zeroed
buffer, `pkt[0..6]` set to `0xFF`, then the 16 copies of `mac`.
`none` models a panic of one of the `copy_from_slice` calls. -/
def magic_packet (mac : List Nat) : Option (List Nat) :=
  match sliceAssign (List.replicate 102 0) 0 6 (List.replicate 6 255) with
  | none => none
  | some pkt => magicWrites mac pkt (List.range 16)

/-- Model of `macaddr::MacAddr6`: exactly six octets, by construction. -/
structure Mac where
  b0 : Nat
  b1 : Nat
  b2 : Nat
  b3 : Nat
  b4 : Nat
  b5 : Nat
deriving DecidableEq

/-- `MacAddr6::as_bytes`: the six octets as a byte slice. -/
def Mac.as_bytes (m : Mac) : List Nat :=
  [m.b0, m.b1, m.b2, m.b3, m.b4, m.b5]

/-- Observable reporting events of `send_magic_packets`:
`info m dest` is the `info!("Sending magic packet to {} at {}", mac, dest)`
log line, `sendErr m dest` the `error!("Can't send ...")` line. -/
inductive Event where
  | info (mac : Mac) (dest : SocketAddr)
  | sendErr (mac : Mac) (dest : SocketAddr)
deriving DecidableEq

/-- Projects the hardware address out of an `info` report. -/
def Event.infoMac : Event → Option Mac
  | .info m _ => some m
  | .sendErr _ _ => none

/-- `true` on the error-severity report. -/
def Event.isErr : Event → Bool
  | .info _ _ => false
  | .sendErr _ _ => true

/-- The per-address loop of `send_magic_packets`.  `sendOk n` is the
outcome the socket's `send_to` would give to the `n`-th attempted
transmission of the run (the OS side of the socket); `i` counts the loop
iterations so far.  Returns the emitted events together with the list of
datagrams (payload, destination) actually handed to `send_to`; `none`
models a panic inside `magic_packet`. -/
def sendGo (dry : Bool) (sendOk : Nat → Bool) (dest : SocketAddr) :
    Nat → List Mac → Option (List Event × List (List Nat × SocketAddr))
  | _, [] => some ([], [])
  | i, m :: ms =>
    if dry then
      (sendGo dry sendOk dest (i + 1) ms).map fun r =>
        (Event.info m dest :: r.1, r.2)
    else
      match magic_packet m.as_bytes with
      | none => none
      | some pkt =>
        if sendOk i then
          (sendGo dry sendOk dest (i + 1) ms).map fun r =>
            (Event.info m dest :: r.1, (pkt, dest) :: r.2)
        else
          (sendGo dry sendOk dest (i + 1) ms).map fun r =>
            (Event.info m dest :: Event.sendErr m dest :: r.1, r.2)

/-- Model of `send_magic_packets` (src/main.rs lines 112-125).  The Rust
function returns `()`; its observable behaviour is the event/datagram
trace returned here. -/
def send_magic_packets (dry : Bool) (sendOk : Nat → Bool)
    (dest : SocketAddr) (macs : List Mac) :
    Option (List Event × List (List Nat × SocketAddr)) :=
  sendGo dry sendOk dest 0 macs

/-- The wildcard source address `main` binds for a given destination:
`"0.0.0.0:0"` for IPv4, `("::", 0)` for IPv6 (src/main.rs lines 53-56). -/
def bind_source (dest : SocketAddr) : SocketAddr :=
  match dest.ip with
  | .v4 _ _ _ _ => ⟨IpAddr.v4 0 0 0 0, 0⟩
  | .v6 _ => ⟨IpAddr.v6 (List.replicate 8 0), 0⟩

/-- The OS-facing oracles `main` consults: `uriHost` is `args.host.host()`,
`lookup` the resolver, `bindResult addr` the outcome of
`UdpSocket::bind(addr)`, `broadcastResult` the outcome of
`set_broadcast(true)`. -/
structure SysOracle where
  uriHost : Option (List Char)
  lookup : List Char → Except Nat (List IpAddr)
  bindResult : SocketAddr → Except Nat Unit
  broadcastResult : Except Nat Unit

/-- The distinct failure exits of `main`; any of these makes the process
exit with a non-zero status. -/
inductive MainErr where
  | noHostname
  | resolveFailed (e : ResolveErr)
  | bindFailed (e : Nat)
  | broadcastFailed (e : Nat)
  | panicked
deriving DecidableEq

/-- What a successful run of `main` did: the report events, the datagrams
sent, the address the socket was bound to, and whether broadcast was
enabled on it. -/
structure MainResult where
  events : List Event
  sent : List (List Nat × SocketAddr)
  boundTo : SocketAddr
  broadcastSet : Bool
deriving DecidableEq

/-- Model of `main` (src/main.rs lines 36-66): extract the hostname from
the URI, resolve it, bind the family-matching wildcard socket, enable
broadcast for IPv4 destinations only, then run `send_magic_packets`.
`Except.ok` is exit status 0, `Except.error` a non-zero exit. -/
def main (o : SysOracle) (port : Nat) (dry : Bool) (sendOk : Nat → Bool)
    (macs : List Mac) : Except MainErr MainResult :=
  match o.uriHost with
  | none => .error .noHostname
  | some host =>
    match resolve_destination o.lookup host port with
    | .error e => .error (.resolveFailed e)
    | .ok dest =>
      match o.bindResult (bind_source dest) with
      | .error e => .error (.bindFailed e)
      | .ok _ =>
        match dest.ip with
        | .v4 _ _ _ _ =>
          match o.broadcastResult with
          | .error e => .error (.broadcastFailed e)
          | .ok _ =>
            match send_magic_packets dry sendOk dest macs with
            | none => .error .panicked
            | some t => .ok ⟨t.1, t.2, bind_source dest, true⟩
        | .v6 _ =>
          match send_magic_packets dry sendOk dest macs with
          | none => .error .panicked
          | some t => .ok ⟨t.1, t.2, bind_source dest, false⟩

/-- All of `main`'s setup steps succeed: a hostname is present in the URI,
it resolves, the wildcard bind succeeds, and (for IPv4 destinations) so
does enabling broadcast. -/
def setup_ok (o : SysOracle) (port : Nat) : Prop :=
  ∃ h d, o.uriHost = some h ∧
    resolve_destination o.lookup h port = Except.ok d ∧
    o.bindResult (bind_source d) = Except.ok () ∧
    (d.ip.isV4 = true → o.broadcastResult = Except.ok ())

/-! ### Host normalization and destination resolution -/

/-- `trim_start_matches` removes a matching head character and recurses. -/
lemma trimStartMatches_cons_eq (c : Char) (s : List Char) :
    trimStartMatches c (c :: s) = trimStartMatches c s := by
  simp [trimStartMatches]

/-- `trim_start_matches` is the identity when the head does not match. -/
lemma trimStartMatches_of_head (c : Char) (s : List Char) (h : s.head? ≠ some c) :
    trimStartMatches c s = s := by
  cases s with
  | nil => rfl
  | cons x xs =>
    have hx : x ≠ c := by intro he; exact h (by rw [he]; rfl)
    simp [trimStartMatches, hx]

/-- A string splits into a block of leading `c`s and its
`trim_start_matches c` trimming, whose head is not `c`. -/
lemma trimStartMatches_decomp (c : Char) (s : List Char) :
    ∃ a, s = List.replicate a c ++ trimStartMatches c s ∧
      (trimStartMatches c s).head? ≠ some c := by
  induction s with
  | nil => exact ⟨0, rfl, by simp [trimStartMatches]⟩
  | cons x xs ih =>
    by_cases hx : x = c
    · obtain ⟨a, ha, hh⟩ := ih
      subst hx
      refine ⟨a + 1, ?_, ?_⟩
      · rw [trimStartMatches_cons_eq, List.replicate_succ, List.cons_append, ← ha]
      · rw [trimStartMatches_cons_eq]; exact hh
    · refine ⟨0, ?_, ?_⟩
      · simp [trimStartMatches, hx]
      · simp [trimStartMatches, hx]

/-- `trim_end_matches` is the identity when the last character does not
match. -/
lemma trimEndMatches_of_getLast (c : Char) (s : List Char) (h : s.getLast? ≠ some c) :
    trimEndMatches c s = s := by
  unfold trimEndMatches
  rw [trimStartMatches_of_head c s.reverse (by rwa [List.head?_reverse]),
    List.reverse_reverse]

/-- A string splits into its `trim_end_matches c` trimming, whose last
character is not `c`, and a block of trailing `c`s. -/
lemma trimEndMatches_decomp (c : Char) (s : List Char) :
    ∃ b, s = trimEndMatches c s ++ List.replicate b c ∧
      (trimEndMatches c s).getLast? ≠ some c := by
  obtain ⟨b, hb, hh⟩ := trimStartMatches_decomp c s.reverse
  refine ⟨b, ?_, ?_⟩
  · have := congrArg List.reverse hb
    simpa [trimEndMatches, List.reverse_append] using this
  · unfold trimEndMatches
    rwa [List.getLast?_reverse]

/-- The host is a block of leading `[`s, then `host_clean host` (which
neither starts with `[` nor ends with `]`), then a block of trailing
`]`s: the cleaning removes exactly the leading/trailing bracket runs. -/
lemma host_clean_decomp (host : List Char) :
    ∃ a b, host = List.replicate a '[' ++ host_clean host ++ List.replicate b ']' ∧
      (host_clean host).head? ≠ some '[' ∧
      (host_clean host).getLast? ≠ some ']' := by
  obtain ⟨a, ha, hhead⟩ := trimStartMatches_decomp '[' host
  obtain ⟨b, hb, hlast⟩ := trimEndMatches_decomp ']' (trimStartMatches '[' host)
  refine ⟨a, b, ?_, ?_, hlast⟩
  · rw [List.append_assoc]
    show host = List.replicate a '[' ++
      (trimEndMatches ']' (trimStartMatches '[' host) ++ List.replicate b ']')
    rw [← hb]; exact ha
  · show (trimEndMatches ']' (trimStartMatches '[' host)).head? ≠ some '['
    intro hx
    apply hhead
    rw [hb, List.head?_append, hx]
    rfl

/-- Cleaning an already-cleaned host changes nothing. -/
lemma host_clean_idem (host : List Char) :
    host_clean (host_clean host) = host_clean host := by
  obtain ⟨a, b, _, hhead, hlast⟩ := host_clean_decomp host
  show trimEndMatches ']' (trimStartMatches '[' (host_clean host)) = host_clean host
  rw [trimStartMatches_of_head '[' _ hhead, trimEndMatches_of_getLast ']' _ hlast]

/-- Wrapping a bracket-free host in one pair of brackets does not change
its cleaned form. -/
lemma host_clean_bracket (h : List Char)
    (hhead : h.head? ≠ some '[') (hlast : h.getLast? ≠ some ']') :
    host_clean ('[' :: (h ++ [']'])) = host_clean h := by
  have hh2 : (h ++ ([']'] : List Char)).head? ≠ some '[' := by
    cases h with
    | nil => decide
    | cons x xs =>
      intro hx
      exact hhead (by simpa using hx)
  unfold host_clean
  rw [trimStartMatches_cons_eq, trimStartMatches_of_head '[' _ hh2,
    trimStartMatches_of_head '[' _ hhead]
  unfold trimEndMatches
  rw [List.reverse_append]
  show (trimStartMatches ']' (']' :: h.reverse)).reverse = _
  rw [trimStartMatches_cons_eq,
    trimStartMatches_of_head ']' h.reverse (by rwa [List.head?_reverse])]

/-- Claim C3: `resolve_destination` errs exactly when the lookup on the
cleaned host errs or yields zero addresses; when the lookup yields at
least one address it returns the first one, carrying the given port. -/
theorem resolve_destination_spec (lookup : List Char → Except Nat (List IpAddr))
    (host : List Char) (port : Nat) :
    ((∃ e, resolve_destination lookup host port = Except.error e) ↔
      ((∃ e, lookup (host_clean host) = Except.error e) ∨
        lookup (host_clean host) = Except.ok [])) ∧
    (∀ a rest, lookup (host_clean host) = Except.ok (a :: rest) →
      resolve_destination lookup host port = Except.ok ⟨a, port⟩) := by
  unfold resolve_destination
  cases hl : lookup (host_clean host) with
  | error e => simp [hl]
  | ok l => cases l <;> simp [hl]

/-- Witness for C3: a lookup yielding `127.0.0.1` makes
`resolve_destination "127.0.0.1" 9` an IPv4 address with port 9. -/
theorem resolve_destination_spec_witness :
    resolve_destination (fun _ => Except.ok [IpAddr.v4 127 0 0 1])
      ['1', '2', '7', '.', '0', '.', '0', '.', '1'] 9 =
      Except.ok ⟨IpAddr.v4 127 0 0 1, 9⟩ :=
  (resolve_destination_spec (fun _ => Except.ok [IpAddr.v4 127 0 0 1])
    ['1', '2', '7', '.', '0', '.', '0', '.', '1'] 9).2 (IpAddr.v4 127 0 0 1) [] rfl

/-- Counterexample to C4 as stated: on `"[[a]]"` the code's normalization
(`trim_start_matches`/`trim_end_matches`) removes BOTH leading brackets
and BOTH trailing brackets, yielding `"a"`, not the `"[a]"` that removing
exactly one of each would give; the lookup consequently sees a 1-character
host. -/
theorem host_clean_not_single_strip :
    host_clean ['[', '[', 'a', ']', ']'] ≠ host_clean_single ['[', '[', 'a', ']', ']'] ∧
    host_clean ['[', '[', 'a', ']', ']'] = ['a'] ∧
    host_clean_single ['[', '[', 'a', ']', ']'] = ['[', 'a', ']'] ∧
    resolve_destination (fun s => Except.ok [IpAddr.v4 s.length 0 0 0])
      ['[', '[', 'a', ']', ']'] 9 = Except.ok ⟨IpAddr.v4 1 0 0 0, 9⟩ := by
  refine ⟨by decide, by decide, by decide, rfl⟩

/-- Claim C4 (amended): `resolve_destination`'s normalization strips every
leading `[` and every trailing `]` — the host splits as leading-bracket
run, cleaned core (not starting with `[`, not ending with `]`), trailing
bracket run — and no other characters are removed. -/
theorem host_clean_strips_all_brackets (host : List Char) :
    ∃ a b, host = List.replicate a '[' ++ host_clean host ++ List.replicate b ']' ∧
      (host_clean host).head? ≠ some '[' ∧
      (host_clean host).getLast? ≠ some ']' :=
  host_clean_decomp host

/-- Witness for the amended C4 at the concrete host `"[[::1]]"`. -/
theorem host_clean_strips_all_brackets_witness :
    ∃ a b, ['[', '[', ':', ':', '1', ']', ']'] =
        List.replicate a '[' ++ host_clean ['[', '[', ':', ':', '1', ']', ']'] ++
          List.replicate b ']' ∧
      (host_clean ['[', '[', ':', ':', '1', ']', ']']).head? ≠ some '[' ∧
      (host_clean ['[', '[', ':', ':', '1', ']', ']']).getLast? ≠ some ']' :=
  host_clean_strips_all_brackets ['[', '[', ':', ':', '1', ']', ']']

/-- Claim C9: bracket wrapping is transparent — for every host not
starting with `[` and not ending with `]`, resolving `"[" ++ h ++ "]"`
gives exactly the result of resolving `h`, for every lookup and port. -/
theorem resolve_destination_bracket_transparent
    (lookup : List Char → Except Nat (List IpAddr)) (h : List Char) (p : Nat)
    (hhead : h.head? ≠ some '[') (hlast : h.getLast? ≠ some ']') :
    resolve_destination lookup ('[' :: (h ++ [']'])) p =
      resolve_destination lookup h p := by
  unfold resolve_destination
  rw [host_clean_bracket h hhead hlast]

/-- Witness for C9: `resolve_destination "[::1]" 9` equals
`resolve_destination "::1" 9`. -/
theorem resolve_destination_bracket_transparent_witness :
    resolve_destination (fun _ => Except.ok [IpAddr.v6 [0, 0, 0, 0, 0, 0, 0, 1]])
      ['[', ':', ':', '1', ']'] 9 =
      resolve_destination (fun _ => Except.ok [IpAddr.v6 [0, 0, 0, 0, 0, 0, 0, 1]])
        [':', ':', '1'] 9 :=
  resolve_destination_bracket_transparent
    (fun _ => Except.ok [IpAddr.v6 [0, 0, 0, 0, 0, 0, 0, 1]])
    [':', ':', '1'] 9 (by decide) (by decide)

/-- Claim C10: the normalization removes every leading `[` and every
trailing `]`, repeated and unmatched brackets included: `"[[::1]]"` and
`"[::1"` resolve exactly as `"::1"` does, and in general resolution only
ever sees the cleaned host (cleaning is idempotent). -/
theorem resolve_destination_strips_repeated
    (lookup : List Char → Except Nat (List IpAddr)) (p : Nat) :
    resolve_destination lookup ['[', '[', ':', ':', '1', ']', ']'] p =
      resolve_destination lookup [':', ':', '1'] p ∧
    resolve_destination lookup ['[', ':', ':', '1'] p =
      resolve_destination lookup [':', ':', '1'] p ∧
    (∀ host, resolve_destination lookup host p =
      resolve_destination lookup (host_clean host) p) := by
  refine ⟨?_, ?_, ?_⟩
  · unfold resolve_destination
    rw [(by decide : host_clean ['[', '[', ':', ':', '1', ']', ']'] =
      host_clean [':', ':', '1'])]
  · unfold resolve_destination
    rw [(by decide : host_clean ['[', ':', ':', '1'] = host_clean [':', ':', '1'])]
  · intro host
    unfold resolve_destination
    rw [host_clean_idem]

/-- Witness for C10 at a concrete lookup and port. -/
theorem resolve_destination_strips_repeated_witness :
    resolve_destination (fun _ => Except.ok [IpAddr.v6 [0, 0, 0, 0, 0, 0, 0, 1]])
      ['[', '[', ':', ':', '1', ']', ']'] 9 =
      resolve_destination (fun _ => Except.ok [IpAddr.v6 [0, 0, 0, 0, 0, 0, 0, 1]])
        [':', ':', '1'] 9 :=
  (resolve_destination_strips_repeated
    (fun _ => Except.ok [IpAddr.v6 [0, 0, 0, 0, 0, 0, 0, 1]]) 9).1

/-! ### Magic-packet construction -/

/-- `copy_from_slice` into the middle third of a buffer, when the source
length matches the slice length, succeeds and replaces exactly that third. -/
lemma sliceAssign_eq (pre mid post src : List Nat) (h : src.length = mid.length) :
    sliceAssign (pre ++ mid ++ post) pre.length (pre.length + mid.length) src =
      some (pre ++ src ++ post) := by
  unfold sliceAssign
  have hb : pre.length + mid.length ≤ (pre ++ mid ++ post).length := by
    simp [List.length_append]
  rw [if_pos ⟨Nat.le_add_right _ _, hb⟩, if_pos (by omega)]
  have ht : (pre ++ mid ++ post).take pre.length = pre := by
    rw [List.append_assoc, List.take_left]
  have hd : (pre ++ mid ++ post).drop (pre.length + mid.length) = post := by
    rw [← List.length_append pre mid]
    exact List.drop_left (pre ++ mid) post
  rw [ht, hd]

/-- Running the copy loop for indices `a, a+1, …, a+n-1` over a buffer that
is a filled prefix of length `6+6a` followed by `6n` zero bytes appends `n`
copies of the 6-byte `mac` to the prefix. -/
lemma magicWrites_eq (mac : List Nat) (h6 : mac.length = 6) :
    ∀ (n a : Nat) (pre : List Nat), pre.length = 6 + 6 * a →
      magicWrites mac (pre ++ List.replicate (6 * n) 0) (List.range' a n) =
        some (pre ++ (List.replicate n mac).flatten) := by
  intro n
  induction n with
  | zero => intro a pre hp; simp [magicWrites]
  | succ n ih =>
    intro a pre hp
    rw [List.range'_succ]
    have hsplit : (6 : Nat) * (n + 1) = 6 + 6 * n := by ring
    rw [hsplit, List.replicate_add, ← List.append_assoc]
    have hstep := sliceAssign_eq pre (List.replicate 6 0) (List.replicate (6 * n) 0) mac
      (by simpa using h6)
    have hlo : 6 + a * 6 = pre.length := by omega
    have hhi : 12 + a * 6 = pre.length + (List.replicate 6 (0:Nat)).length := by
      simp; omega
    show magicWrites mac (pre ++ List.replicate 6 0 ++ List.replicate (6 * n) 0)
      (a :: List.range' (a+1) n) = _
    rw [magicWrites, hlo, hhi, hstep]
    show magicWrites mac ((pre ++ mac) ++ List.replicate (6 * n) 0) (List.range' (a+1) n) = _
    rw [ih (a + 1) (pre ++ mac) (by simp [h6]; omega)]
    rw [List.replicate_succ, List.flatten_cons, ← List.append_assoc]

/-- The initial `pkt[0..6].copy_from_slice(&[0xFF; 6])` succeeds and yields
six `0xFF` bytes followed by 96 zero bytes. -/
lemma magic_packet_sync :
    sliceAssign (List.replicate 102 0) 0 6 (List.replicate 6 255) =
      some (List.replicate 6 255 ++ List.replicate 96 0) := by
  have h : List.replicate (102:Nat) (0:Nat) =
      ([] : List Nat) ++ List.replicate 6 0 ++ List.replicate 96 0 := by
    rw [List.nil_append, ← List.replicate_add]
  rw [h]
  have := sliceAssign_eq ([] : List Nat) (List.replicate 6 (0:Nat))
    (List.replicate 96 (0:Nat)) (List.replicate 6 255) (by simp)
  simpa using this

/-- Closed form of `magic_packet` on a 6-byte address: six `0xFF` bytes,
then sixteen contiguous copies of the address. -/
lemma magic_packet_eq (mac : List Nat) (h6 : mac.length = 6) :
    magic_packet mac =
      some (List.replicate 6 255 ++ (List.replicate 16 mac).flatten) := by
  unfold magic_packet
  rw [magic_packet_sync, List.range_eq_range']
  have := magicWrites_eq mac h6 16 0 (List.replicate 6 255) (by simp)
  simpa using this

/-- Byte `6*i + j` of `n` concatenated copies of a 6-byte address is byte
`j` of the address. -/
lemma flatten_replicate_getElem (mac : List Nat) (h6 : mac.length = 6) :
    ∀ (i n j : Nat), i < n → j < 6 →
      ((List.replicate n mac).flatten)[6 * i + j]? = mac[j]? := by
  intro i
  induction i with
  | zero =>
    intro n j hn hj
    cases n with
    | zero => omega
    | succ m =>
      rw [List.replicate_succ, List.flatten_cons]
      have hidx : 6 * 0 + j = j := by omega
      rw [hidx, List.getElem?_append, if_pos (by omega)]
  | succ i ih =>
    intro n j hn hj
    cases n with
    | zero => omega
    | succ m =>
      rw [List.replicate_succ, List.flatten_cons]
      rw [List.getElem?_append_right (by omega : mac.length ≤ 6 * (i+1) + j)]
      have hidx : 6 * (i + 1) + j - mac.length = 6 * i + j := by omega
      rw [hidx]
      exact ih m j (by omega) hj

/-- Claim C1: for every hardware address `m` of exactly 6 bytes,
`magic_packet m` returns a payload of length exactly 102 bytes whose
bytes 0–5 each equal `0xFF` and, for every `i` in `[0,16)`, whose bytes
`[6+6i, 12+6i)` equal `m` exactly. -/
theorem magic_packet_structure (mac : List Nat) (h6 : mac.length = 6) :
    ∃ pkt, magic_packet mac = some pkt ∧ pkt.length = 102 ∧
      (∀ j, j < 6 → pkt[j]? = some 255) ∧
      (∀ i j, i < 16 → j < 6 → pkt[6 + 6 * i + j]? = mac[j]?) := by
  refine ⟨_, magic_packet_eq mac h6, ?_, ?_, ?_⟩
  · rw [List.length_append, List.length_flatten, List.map_replicate, h6]
    simp [List.sum_replicate]
  · intro j hj
    rw [List.getElem?_append, if_pos (by simpa using hj)]
    rw [List.getElem?_replicate, if_pos hj]
  · intro i j hi hj
    rw [List.getElem?_append_right
      (by simp only [List.length_replicate]; omega :
        (List.replicate 6 (255:Nat)).length ≤ 6 + 6 * i + j)]
    have hidx : 6 + 6 * i + j - (List.replicate 6 (255:Nat)).length = 6 * i + j := by
      simp only [List.length_replicate]; omega
    rw [hidx]
    exact flatten_replicate_getElem mac h6 i 16 j hi hj

/-- Witness for C1 at the concrete address `00:11:22:33:44:55`. -/
theorem magic_packet_structure_witness :
    ∃ pkt, magic_packet ([0x00, 0x11, 0x22, 0x33, 0x44, 0x55] : List Nat) = some pkt ∧
      pkt.length = 102 ∧
      (∀ j, j < 6 → pkt[j]? = some 255) ∧
      (∀ i j, i < 16 → j < 6 →
        pkt[6 + 6 * i + j]? = ([0x00, 0x11, 0x22, 0x33, 0x44, 0x55] : List Nat)[j]?) :=
  magic_packet_structure [0x00, 0x11, 0x22, 0x33, 0x44, 0x55] (by decide)

/-- Claim C8: with an input slice of length exactly 6, `magic_packet`
never panics (every slice copy succeeds); with any other input length it
does not complete normally (the model returns `none`, a panic). -/
theorem magic_packet_contract (mac : List Nat) :
    (mac.length = 6 → (magic_packet mac).isSome = true) ∧
    (mac.length ≠ 6 → magic_packet mac = none) := by
  constructor
  · intro h6; rw [magic_packet_eq mac h6]; rfl
  · intro hne
    unfold magic_packet
    rw [magic_packet_sync]
    have hr : List.range 16 = 0 :: List.range' 1 15 := by
      rw [List.range_eq_range', List.range'_succ]
    rw [hr]
    have hc : sliceAssign (List.replicate 6 255 ++ List.replicate 96 0)
        (6 + 0 * 6) (12 + 0 * 6) mac = none := by
      unfold sliceAssign
      rw [if_pos (by simp), if_neg (by simpa using hne)]
    show (match sliceAssign (List.replicate 6 255 ++ List.replicate 96 0)
            (6 + 0 * 6) (12 + 0 * 6) mac with
          | none => none
          | some pkt2 => magicWrites mac pkt2 (List.range' 1 15)) = none
    rw [hc]

/-- Witness for C8: a 6-byte address builds a packet, a 3-byte slice
panics. -/
theorem magic_packet_contract_witness :
    (magic_packet ([1, 2, 3, 4, 5, 6] : List Nat)).isSome = true ∧
      magic_packet ([1, 2, 3] : List Nat) = none :=
  ⟨(magic_packet_contract [1, 2, 3, 4, 5, 6]).1 (by decide),
   (magic_packet_contract [1, 2, 3]).2 (by decide)⟩


/-! ### Packet sending -/

/-- `MacAddr6::as_bytes` always yields exactly 6 bytes. -/
lemma Mac.as_bytes_length (m : Mac) : m.as_bytes.length = 6 := rfl

/-- Loop step in dry-run mode: report the intended send and skip. -/
lemma sendGo_cons_dry (sendOk : Nat → Bool) (dest : SocketAddr) (i : Nat)
    (m : Mac) (ms : List Mac) (evs : List Event)
    (sent : List (List Nat × SocketAddr))
    (hgo : sendGo true sendOk dest (i + 1) ms = some (evs, sent)) :
    sendGo true sendOk dest i (m :: ms) = some (Event.info m dest :: evs, sent) := by
  rw [sendGo, if_pos rfl, hgo]
  rfl

/-- Loop step for a successful send: report it and transmit the packet. -/
lemma sendGo_cons_sent (sendOk : Nat → Bool) (dest : SocketAddr) (i : Nat)
    (m : Mac) (ms : List Mac) (evs : List Event)
    (sent : List (List Nat × SocketAddr)) (hOk : sendOk i = true)
    (hgo : sendGo false sendOk dest (i + 1) ms = some (evs, sent)) :
    sendGo false sendOk dest i (m :: ms) =
      some (Event.info m dest :: evs,
        (List.replicate 6 255 ++ (List.replicate 16 m.as_bytes).flatten, dest) :: sent) := by
  rw [sendGo, if_neg (by simp), magic_packet_eq m.as_bytes rfl]
  simp only []
  rw [hOk, if_pos rfl, hgo]
  rfl

/-- Loop step for a failed send: report the attempt, report the error, and
continue with the remaining addresses. -/
lemma sendGo_cons_failed (sendOk : Nat → Bool) (dest : SocketAddr) (i : Nat)
    (m : Mac) (ms : List Mac) (evs : List Event)
    (sent : List (List Nat × SocketAddr)) (hOk : sendOk i = false)
    (hgo : sendGo false sendOk dest (i + 1) ms = some (evs, sent)) :
    sendGo false sendOk dest i (m :: ms) =
      some (Event.info m dest :: Event.sendErr m dest :: evs, sent) := by
  rw [sendGo, if_neg (by simp), magic_packet_eq m.as_bytes rfl]
  simp only []
  rw [hOk, if_neg (by simp), hgo]
  rfl

/-- Invariant of the per-address loop from iteration `i` on: it never
panics, it emits one `info` report per address in input order (also past
failed sends), it reports an error for every failed non-dry send, and in
dry-run mode it reports every address and transmits nothing. -/
lemma sendGo_spec (dry : Bool) (sendOk : Nat → Bool) (dest : SocketAddr) :
    ∀ (macs : List Mac) (i : Nat), ∃ evs sent,
      sendGo dry sendOk dest i macs = some (evs, sent) ∧
      evs.filterMap Event.infoMac = macs ∧
      (∀ j (hj : j < macs.length), dry = false → sendOk (i + j) = false →
        Event.sendErr macs[j] dest ∈ evs) ∧
      (dry = true → evs = macs.map (fun m => Event.info m dest) ∧ sent = []) := by
  intro macs
  induction macs with
  | nil =>
    intro i
    refine ⟨[], [], rfl, rfl, ?_, fun _ => ⟨rfl, rfl⟩⟩
    intro j hj
    simp at hj
  | cons m ms ih =>
    intro i
    cases dry with
    | true =>
      obtain ⟨evs, sent, hgo, hinfo, _, hdry⟩ := ih (i + 1)
      refine ⟨Event.info m dest :: evs, sent,
        sendGo_cons_dry sendOk dest i m ms evs sent hgo, ?_, ?_, ?_⟩
      · simp [List.filterMap_cons, Event.infoMac, hinfo]
      · intro j hj hc
        exact absurd hc (by decide)
      · intro _
        obtain ⟨he, hs⟩ := hdry rfl
        rw [he, hs]
        exact ⟨rfl, rfl⟩
    | false =>
      obtain ⟨evs, sent, hgo, hinfo, herr, _⟩ := ih (i + 1)
      cases hOk : sendOk i with
      | true =>
        refine ⟨Event.info m dest :: evs,
          (List.replicate 6 255 ++ (List.replicate 16 m.as_bytes).flatten, dest) :: sent,
          sendGo_cons_sent sendOk dest i m ms evs sent hOk hgo, ?_, ?_, ?_⟩
        · simp [List.filterMap_cons, Event.infoMac, hinfo]
        · intro j hj _ hOkj
          cases j with
          | zero =>
            rw [Nat.add_zero, hOk] at hOkj
            cases hOkj
          | succ k =>
            have hik : i + 1 + k = i + (k + 1) := by omega
            have hk : k < ms.length := by simpa using hj
            have hmem := herr k hk rfl (by rw [hik]; exact hOkj)
            simpa using List.mem_cons_of_mem (Event.info m dest) hmem
        · intro hc
          exact absurd hc (by decide)
      | false =>
        refine ⟨Event.info m dest :: Event.sendErr m dest :: evs, sent,
          sendGo_cons_failed sendOk dest i m ms evs sent hOk hgo, ?_, ?_, ?_⟩
        · simp [List.filterMap_cons, Event.infoMac, hinfo]
        · intro j hj _ hOkj
          cases j with
          | zero => simp
          | succ k =>
            have hik : i + 1 + k = i + (k + 1) := by omega
            have hk : k < ms.length := by simpa using hj
            have hmem := herr k hk rfl (by rw [hik]; exact hOkj)
            have h2 := List.mem_cons_of_mem (Event.sendErr m dest) hmem
            have h3 := List.mem_cons_of_mem (Event.info m dest) h2
            simpa using h3
        · intro hc
          exact absurd hc (by decide)


/-- Claim C2: `send_magic_packets` returns (without panicking) only after
processing every address exactly once, in input order — one `info` report
per address, in order — and a failed send is reported for its address but
never stops the processing of the remaining addresses. -/
theorem send_magic_packets_batch (dry : Bool) (sendOk : Nat → Bool)
    (dest : SocketAddr) (macs : List Mac) :
    ∃ evs sent, send_magic_packets dry sendOk dest macs = some (evs, sent) ∧
      evs.filterMap Event.infoMac = macs ∧
      (∀ j (hj : j < macs.length), dry = false → sendOk j = false →
        Event.sendErr macs[j] dest ∈ evs) := by
  obtain ⟨evs, sent, hgo, hinfo, herr, _⟩ := sendGo_spec dry sendOk dest macs 0
  refine ⟨evs, sent, hgo, hinfo, ?_⟩
  intro j hj hdry hOkj
  exact herr j hj hdry (by rwa [Nat.zero_add])

/-- Witness for C2: one address, a failing socket; the attempt and the
failure are both reported and the batch completes. -/
theorem send_magic_packets_batch_witness :
    ∃ evs sent,
      send_magic_packets false (fun _ => false) ⟨IpAddr.v4 255 255 255 255, 9⟩
        [⟨0, 17, 34, 51, 68, 85⟩] = some (evs, sent) ∧
      evs.filterMap Event.infoMac = [⟨0, 17, 34, 51, 68, 85⟩] ∧
      (∀ j (hj : j < [(⟨0, 17, 34, 51, 68, 85⟩ : Mac)].length),
        false = false → false = false →
        Event.sendErr [(⟨0, 17, 34, 51, 68, 85⟩ : Mac)][j]
          ⟨IpAddr.v4 255 255 255 255, 9⟩ ∈ evs) :=
  send_magic_packets_batch false (fun _ => false) ⟨IpAddr.v4 255 255 255 255, 9⟩
    [⟨0, 17, 34, 51, 68, 85⟩]

/-- Claim C6: in dry-run mode `send_magic_packets` transmits no datagram
at all, still reports the intended send for every address, and reports no
error. -/
theorem send_magic_packets_dry_run (sendOk : Nat → Bool) (dest : SocketAddr)
    (macs : List Mac) :
    send_magic_packets true sendOk dest macs =
      some (macs.map (fun m => Event.info m dest), []) ∧
    (∀ e, e ∈ macs.map (fun m => Event.info m dest) → Event.isErr e = false) := by
  constructor
  · obtain ⟨evs, sent, hgo, _, _, hdry⟩ := sendGo_spec true sendOk dest macs 0
    obtain ⟨he, hs⟩ := hdry rfl
    rw [← he, ← hs]
    exact hgo
  · intro e he
    simp only [List.mem_map] at he
    obtain ⟨m, _, rfl⟩ := he
    rfl

/-- Witness for C6: the spec's end-to-end dry-run example with addresses
`00:11:22:33:44:55` and `AA:BB:CC:DD:EE:FF`. -/
theorem send_magic_packets_dry_run_witness :
    send_magic_packets true (fun _ => true) ⟨IpAddr.v4 255 255 255 255, 9⟩
      [⟨0x00, 0x11, 0x22, 0x33, 0x44, 0x55⟩, ⟨0xAA, 0xBB, 0xCC, 0xDD, 0xEE, 0xFF⟩] =
      some ([⟨0x00, 0x11, 0x22, 0x33, 0x44, 0x55⟩,
        (⟨0xAA, 0xBB, 0xCC, 0xDD, 0xEE, 0xFF⟩ : Mac)].map
          (fun m => Event.info m ⟨IpAddr.v4 255 255 255 255, 9⟩), []) ∧
    (∀ e, e ∈ [⟨0x00, 0x11, 0x22, 0x33, 0x44, 0x55⟩,
        (⟨0xAA, 0xBB, 0xCC, 0xDD, 0xEE, 0xFF⟩ : Mac)].map
          (fun m => Event.info m ⟨IpAddr.v4 255 255 255 255, 9⟩) →
      Event.isErr e = false) :=
  send_magic_packets_dry_run (fun _ => true) ⟨IpAddr.v4 255 255 255 255, 9⟩
    [⟨0x00, 0x11, 0x22, 0x33, 0x44, 0x55⟩, ⟨0xAA, 0xBB, 0xCC, 0xDD, 0xEE, 0xFF⟩]

/-! ### The main entry point -/

/-- Anything a successful run of `main` guarantees: all setup steps
succeeded, the socket was bound to the wildcard source matching the
destination family, broadcast was enabled exactly for IPv4, and every
address was reported (hence processed), in order. -/
lemma main_ok_spec (o : SysOracle) (port : Nat) (dry : Bool) (sendOk : Nat → Bool)
    (macs : List Mac) (r : MainResult)
    (hr : main o port dry sendOk macs = Except.ok r) :
    ∃ h d, o.uriHost = some h ∧
      resolve_destination o.lookup h port = Except.ok d ∧
      o.bindResult (bind_source d) = Except.ok () ∧
      (d.ip.isV4 = true → o.broadcastResult = Except.ok ()) ∧
      r.boundTo = bind_source d ∧
      r.broadcastSet = d.ip.isV4 ∧
      r.events.filterMap Event.infoMac = macs := by
  cases hu : o.uriHost with
  | none => simp [main, hu] at hr
  | some h =>
    cases hres : resolve_destination o.lookup h port with
    | error e => simp [main, hu, hres] at hr
    | ok d =>
      cases hbind : o.bindResult (bind_source d) with
      | error e => simp [main, hu, hres, hbind] at hr
      | ok u =>
        obtain ⟨evs, sent, hgo, hinfo, _, _⟩ := sendGo_spec dry sendOk d macs 0
        have hsend : send_magic_packets dry sendOk d macs = some (evs, sent) := hgo
        cases hip : d.ip with
        | v4 a b c d4 =>
          cases hbc : o.broadcastResult with
          | error e => simp [main, hu, hres, hbind, hip, hbc] at hr
          | ok v =>
            simp only [main, hu, hres, hbind, hip, hbc, hsend] at hr
            injection hr with hr2
            subst hr2
            refine ⟨h, d, rfl, hres, hbind, fun _ => rfl, rfl, ?_, hinfo⟩
            rw [hip]
            rfl
        | v6 segs =>
          simp only [main, hu, hres, hbind, hip, hsend] at hr
          injection hr with hr2
          subst hr2
          refine ⟨h, d, rfl, hres, hbind, ?_, rfl, ?_, hinfo⟩
          · intro h4
            rw [hip] at h4
            simp [IpAddr.isV4] at h4
          · rw [hip]
            rfl

/-- When every setup step succeeds, `main` exits successfully. -/
lemma main_ok_of_setup (o : SysOracle) (port : Nat) (dry : Bool)
    (sendOk : Nat → Bool) (macs : List Mac) (hs : setup_ok o port) :
    ∃ r, main o port dry sendOk macs = Except.ok r := by
  obtain ⟨h, d, hu, hres, hbind, hbc⟩ := hs
  obtain ⟨evs, sent, hgo, _, _, _⟩ := sendGo_spec dry sendOk d macs 0
  have hsend : send_magic_packets dry sendOk d macs = some (evs, sent) := hgo
  cases hip : d.ip with
  | v4 a b c d4 =>
    have hbc2 : o.broadcastResult = Except.ok () := hbc (by rw [hip]; rfl)
    exact ⟨⟨evs, sent, bind_source d, true⟩,
      by simp only [main, hu, hres, hbind, hip, hbc2, hsend]⟩
  | v6 segs =>
    exact ⟨⟨evs, sent, bind_source d, false⟩,
      by simp only [main, hu, hres, hbind, hip, hsend]⟩

/-- Claim C5: the process exits non-zero exactly when a setup step fails
(missing hostname, resolution failure, bind failure, broadcast
configuration failure), and exits zero after attempting all sends — every
address is processed — regardless of how many individual sends failed. -/
theorem main_exit_code (o : SysOracle) (port : Nat) (dry : Bool)
    (sendOk : Nat → Bool) (macs : List Mac) :
    ((∃ r, main o port dry sendOk macs = Except.ok r) ↔ setup_ok o port) ∧
    (∀ r, main o port dry sendOk macs = Except.ok r →
      r.events.filterMap Event.infoMac = macs) := by
  refine ⟨⟨?_, ?_⟩, ?_⟩
  · rintro ⟨r, hr⟩
    obtain ⟨h, d, hu, hres, hbind, hbc, _, _, _⟩ :=
      main_ok_spec o port dry sendOk macs r hr
    exact ⟨h, d, hu, hres, hbind, hbc⟩
  · intro hs
    exact main_ok_of_setup o port dry sendOk macs hs
  · intro r hr
    obtain ⟨_, _, _, _, _, _, _, _, hinfo⟩ :=
      main_ok_spec o port dry sendOk macs r hr
    exact hinfo

/-- Witness for C5 at a concrete all-success oracle: every send fails,
yet the run exits zero with both addresses attempted. -/
theorem main_exit_code_witness :
    ((∃ r, main ⟨some ['h'], fun _ => Except.ok [IpAddr.v4 255 255 255 255],
        fun _ => Except.ok (), Except.ok ()⟩ 9 false (fun _ => false)
        [⟨0, 17, 34, 51, 68, 85⟩] = Except.ok r) ↔
      setup_ok ⟨some ['h'], fun _ => Except.ok [IpAddr.v4 255 255 255 255],
        fun _ => Except.ok (), Except.ok ()⟩ 9) ∧
    (∀ r, main ⟨some ['h'], fun _ => Except.ok [IpAddr.v4 255 255 255 255],
        fun _ => Except.ok (), Except.ok ()⟩ 9 false (fun _ => false)
        [⟨0, 17, 34, 51, 68, 85⟩] = Except.ok r →
      r.events.filterMap Event.infoMac = [⟨0, 17, 34, 51, 68, 85⟩]) :=
  main_exit_code ⟨some ['h'], fun _ => Except.ok [IpAddr.v4 255 255 255 255],
    fun _ => Except.ok (), Except.ok ()⟩ 9 false (fun _ => false)
    [⟨0, 17, 34, 51, 68, 85⟩]

/-- Claim C7: the socket is bound to the wildcard address of the
destination's family with port 0 (`0.0.0.0:0` for IPv4, `[::]:0` for
IPv6), and broadcast is enabled on it if and only if the destination is
IPv4 (for IPv6 no broadcast setting is attempted). -/
theorem main_socket_setup (o : SysOracle) (port : Nat) (dry : Bool)
    (sendOk : Nat → Bool) (macs : List Mac) (r : MainResult)
    (hr : main o port dry sendOk macs = Except.ok r) :
    ∃ h d, o.uriHost = some h ∧
      resolve_destination o.lookup h port = Except.ok d ∧
      r.boundTo.port = 0 ∧
      (d.ip.isV4 = true → r.boundTo = ⟨IpAddr.v4 0 0 0 0, 0⟩) ∧
      (d.ip.isV4 = false → r.boundTo = ⟨IpAddr.v6 (List.replicate 8 0), 0⟩) ∧
      r.broadcastSet = d.ip.isV4 := by
  obtain ⟨h, d, hu, hres, _, _, hbound, hbset, _⟩ :=
    main_ok_spec o port dry sendOk macs r hr
  refine ⟨h, d, hu, hres, ?_, ?_, ?_, hbset⟩
  · rw [hbound]
    unfold bind_source
    cases d.ip <;> rfl
  · intro h4
    rw [hbound]
    unfold bind_source
    cases hip : d.ip with
    | v4 a b c d4 => rfl
    | v6 segs =>
      rw [hip] at h4
      simp [IpAddr.isV4] at h4
  · intro h4
    rw [hbound]
    unfold bind_source
    cases hip : d.ip with
    | v4 a b c d4 =>
      rw [hip] at h4
      simp [IpAddr.isV4] at h4
    | v6 segs => rfl

/-- Witness for C7: a concrete successful dry run against
`255.255.255.255:9`, bound to `0.0.0.0:0` with broadcast enabled. -/
theorem main_socket_setup_witness :
    ∃ h d, SysOracle.uriHost ⟨some ['h'],
        fun _ => Except.ok [IpAddr.v4 255 255 255 255],
        fun _ => Except.ok (), Except.ok ()⟩ = some h ∧
      resolve_destination (SysOracle.lookup ⟨some ['h'],
        fun _ => Except.ok [IpAddr.v4 255 255 255 255],
        fun _ => Except.ok (), Except.ok ()⟩) h 9 = Except.ok d ∧
      (MainResult.boundTo ⟨[Event.info ⟨0, 17, 34, 51, 68, 85⟩
          ⟨IpAddr.v4 255 255 255 255, 9⟩], [],
          ⟨IpAddr.v4 0 0 0 0, 0⟩, true⟩).port = 0 ∧
      (d.ip.isV4 = true → MainResult.boundTo ⟨[Event.info ⟨0, 17, 34, 51, 68, 85⟩
          ⟨IpAddr.v4 255 255 255 255, 9⟩], [],
          ⟨IpAddr.v4 0 0 0 0, 0⟩, true⟩ = ⟨IpAddr.v4 0 0 0 0, 0⟩) ∧
      (d.ip.isV4 = false → MainResult.boundTo ⟨[Event.info ⟨0, 17, 34, 51, 68, 85⟩
          ⟨IpAddr.v4 255 255 255 255, 9⟩], [],
          ⟨IpAddr.v4 0 0 0 0, 0⟩, true⟩ = ⟨IpAddr.v6 (List.replicate 8 0), 0⟩) ∧
      MainResult.broadcastSet ⟨[Event.info ⟨0, 17, 34, 51, 68, 85⟩
          ⟨IpAddr.v4 255 255 255 255, 9⟩], [],
          ⟨IpAddr.v4 0 0 0 0, 0⟩, true⟩ = d.ip.isV4 :=
  main_socket_setup ⟨some ['h'], fun _ => Except.ok [IpAddr.v4 255 255 255 255],
    fun _ => Except.ok (), Except.ok ()⟩ 9 true (fun _ => true)
    [⟨0, 17, 34, 51, 68, 85⟩]
    ⟨[Event.info ⟨0, 17, 34, 51, 68, 85⟩ ⟨IpAddr.v4 255 255 255 255, 9⟩], [],
      ⟨IpAddr.v4 0 0 0 0, 0⟩, true⟩ rfl

end WakeOnWan
